import Mathlib

/-!
Shallow embedding of `src/project/scripts/download_images.py`: the filter
pipeline (`filter_by_classification`, `filter_by_artists`), the enrichment
merges of `download_dataset`, and the per-item worker `download_image` with
its session ledger (`write_log`, `write_description`).

Modelling conventions:
* a pandas CSV cell is `Option String`; `none` is NaN (pandas turns an absent
  or empty field into NaN on `read_csv`);
* the HTTP world is an oracle `String → HttpResult` from request URL to either
  a raised transport exception, or a response with a status code, the list of
  body chunks successfully yielded by `iter_content`, and an optional
  transport exception raised while streaming the body after those chunks;
* the filesystem/ledger state is explicit (`FS`): the log is a list of lines,
  the description store is `none` when the file does not exist, and image
  files are a name-to-bytes association list;
* the worker pool is modelled by sequentially folding `download_image` over
  the candidate list (ledger-count and per-item claims are scheduling
  independent; true timing claims are out of the embedding's scope).
-/

namespace NGA

/-- A value written into a CSV cell by `to_csv`: the missing value NaN or a string. -/
inductive Cell where
  | nan : Cell
  | str (s : String) : Cell
deriving DecidableEq

/-- `pd.read_csv` turns an absent or empty field into NaN (`none`). -/
def parseCell : Option String → Option String
  | none => none
  | some s => if s = "" then none else some s

/-- A raw row of `published_images.csv` (relevant columns), before NaN-ification. -/
structure RawImageRow where
  uuid : String
  objectId : Nat
  iiifurlRaw : Option String
deriving DecidableEq

/-- An in-memory row of the images frame: `uuid`, `depictstmsobjectid`, `iiifurl`. -/
structure ImageRow where
  uuid : String
  objectId : Nat
  iiifurl : Option String
deriving DecidableEq

def readImageRow (r : RawImageRow) : ImageRow :=
  ⟨r.uuid, r.objectId, parseCell r.iiifurlRaw⟩

/-- A row of `objects.csv` (relevant columns). -/
structure ObjectRow where
  objectid : Nat
  title : Option String
  displaydate : Option String
  classification : Option String
  subclassification : Option String
  medium : Option String
deriving DecidableEq

/-- A row of `constituents.csv` (relevant columns). -/
structure ConstituentRow where
  constituentid : Nat
  preferreddisplayname : Option String
deriving DecidableEq

/-- A row of `objects_constituents.csv` (relevant columns). -/
structure LinkRow where
  objectid : Nat
  constituentid : Nat
  roletype : Option String
deriving DecidableEq

/-- The four loaded tables. -/
structure Tables where
  images : List RawImageRow
  objects : List ObjectRow
  constituents : List ConstituentRow
  links : List LinkRow

/-- A token of the regex fragment the source's pattern can contain:
a literal character or the `.` wildcard. -/
inductive RTok where
  | dot : RTok
  | lit (c : Char) : RTok
deriving DecidableEq

/-- Case-insensitive single-token match (`re.IGNORECASE`). -/
def charMatches : RTok → Char → Bool
  | .dot, _ => true
  | .lit c, d => c.toLower == d.toLower

/-- Does the token sequence match a prefix of the character list? -/
def seqMatchesAt : List RTok → List Char → Bool
  | [], _ => true
  | _ :: _, [] => false
  | t :: ts, c :: cs => charMatches t c && seqMatchesAt ts cs

/-- `re.search`: does the token sequence match at some position? -/
def seqFound (ts : List RTok) : List Char → Bool
  | [] => seqMatchesAt ts []
  | c :: cs => seqMatchesAt ts (c :: cs) || seqFound ts cs

/-- `'|'.join` on character lists. -/
def joinBar : List (List Char) → List Char
  | [] => []
  | [n] => n
  | n :: ns => n ++ '|' :: joinBar ns

/-- Split a pattern at every bar (regex alternation). -/
def splitBarAux : List Char → List Char → List (List Char)
  | [], acc => [acc.reverse]
  | c :: cs, acc =>
    if c = '|' then acc.reverse :: splitBarAux cs [] else splitBarAux cs (c :: acc)

def splitBar (l : List Char) : List (List Char) := splitBarAux l []

def parseTok (c : Char) : RTok := if c = '.' then .dot else .lit c

/-- Model of `Series.str.contains('|'.join(names), case=False)`: the joined
pattern is a regex — alternation at every bar, `.` matching any character —
searched case-insensitively anywhere in the haystack.  (The source's patterns
contain no further regex metacharacters; any other character is a literal.) -/
def strContainsRegex (names : List String) (hay : String) : Bool :=
  (splitBar (joinBar (names.map String.data))).any
    (fun alt => seqFound (alt.map parseTok) hay.data)

/-- The spec's reading of the artist filter: some given string occurs
literally, case-insensitively, as a substring of the name. -/
def literalContainsAny (names : List String) (hay : String) : Bool :=
  names.any (fun n => seqFound (n.data.map RTok.lit) hay.data)

/-- `objects['classification'].isin(allowed)` (NaN is never in the set). -/
def classifKeep (allowed : List String) (o : ObjectRow) : Bool :=
  match o.classification with
  | some c => allowed.contains c
  | none => false

/-- `objects['subclassification'].isin(excluded)` (NaN is never in the set). -/
def subclassDrop (excluded : List String) (o : ObjectRow) : Bool :=
  match o.subclassification with
  | some s => excluded.contains s
  | none => false

/-- The object-table filtering inside `filter_by_classification`: restrict to
allowed classifications when the allowed list is truthy, then drop excluded
subclassifications when the excluded list is truthy. -/
def classifObjects (objects : List ObjectRow) (allowed excluded : List String) :
    List ObjectRow :=
  let o1 := if allowed.isEmpty then objects else objects.filter (classifKeep allowed)
  if excluded.isEmpty then o1 else o1.filter (fun o => !subclassDrop excluded o)

/-- `filter_by_classification`: keep images whose `depictstmsobjectid` is among
the surviving objects' ids. -/
def filter_by_classification (images : List ImageRow) (objects : List ObjectRow)
    (allowed excluded : List String) : List ImageRow :=
  let objectIds := (classifObjects objects allowed excluded).map ObjectRow.objectid
  images.filter (fun i => objectIds.contains i.objectId)

/-- `constituents[constituents['preferreddisplayname'].str.contains(..., case=False, na=False)]`. -/
def selectedConstituents (constituents : List ConstituentRow)
    (artist_names : List String) : List ConstituentRow :=
  constituents.filter (fun c =>
    match c.preferreddisplayname with
    | some n => strContainsRegex artist_names n
    | none => false)

/-- `filter_by_artists`: when the name list is truthy, keep images of objects
linked (roletype `artist`) to a matched constituent; otherwise all images. -/
def filter_by_artists (images : List ImageRow) (constituents : List ConstituentRow)
    (links : List LinkRow) (artist_names : List String) : List ImageRow :=
  if artist_names.isEmpty then images
  else
    let cids := (selectedConstituents constituents artist_names).map
      ConstituentRow.constituentid
    let artistObjects := links.filter
      (fun l => cids.contains l.constituentid && l.roletype == some "artist")
    let objectIds := artistObjects.map LinkRow.objectid
    images.filter (fun i => objectIds.contains i.objectId)

/-- A row of the enriched frame handed to `download_image`: the image columns
plus, when the corresponding merge ran, the object-metadata columns and the
aggregated artist column.  `hasObjCols` / `hasArtistCol` record whether those
columns exist in the frame (pandas `Series.get` only defaults when a column is
absent, not when its value is NaN). -/
structure TaskRow where
  uuid : String
  objectId : Nat
  iiifurl : Option String
  hasObjCols : Bool
  title : Option String
  displaydate : Option String
  classification : Option String
  medium : Option String
  hasArtistCol : Bool
  artist : Option String
deriving DecidableEq

def baseTask (r : ImageRow) : TaskRow :=
  { uuid := r.uuid, objectId := r.objectId, iiifurl := r.iiifurl,
    hasObjCols := false, title := none, displaydate := none,
    classification := none, medium := none, hasArtistCol := false, artist := none }

/-- The left merge of the image rows with
`objects[['objectid','title','displaydate','classification','medium']]`:
an unmatched image row keeps NaN metadata; each matching object row yields one
output row. -/
def mergeObjectMeta (objects : List ObjectRow) (rows : List TaskRow) : List TaskRow :=
  rows.flatMap (fun r =>
    match objects.filter (fun o => o.objectid == r.objectId) with
    | [] => [{ r with hasObjCols := true }]
    | ms => ms.map (fun o => { r with
        hasObjCols := true
        title := o.title
        displaydate := o.displaydate
        classification := o.classification
        medium := o.medium }))

/-- The aggregated-artist column for one object: artist-role links joined with
constituent names, comma-joined; `none` when the object has no such link (the
left merge then leaves NaN).  (The source's `', '.join` presupposes the joined
names are strings; a NaN name is rendered as the empty string here.) -/
def artistsJoined (t : Tables) (oid : Nat) : Option String :=
  let names := (t.links.filter
      (fun l => l.objectid == oid && l.roletype == some "artist")).flatMap
    (fun l => (t.constituents.filter (fun c => c.constituentid == l.constituentid)).map
      (fun c => c.preferreddisplayname.getD ""))
  if names.isEmpty then none else some (String.intercalate ", " names)

/-- The left merge of the rows with the grouped artist frame. -/
def mergeArtist (t : Tables) (rows : List TaskRow) : List TaskRow :=
  rows.map (fun r => { r with hasArtistCol := true, artist := artistsJoined t r.objectId })

/-- The configuration surface of `download_dataset`; an empty list models a
falsy (`None` or empty) Python argument. -/
structure Config where
  artist_names : List String
  allowed : List String
  excluded : List String
  hasObjectsPath : Bool
  hasConstituentsPaths : Bool

/-- `pd.read_csv(images_path)` followed by `dropna(subset=["iiifurl"])`. -/
def data0 (t : Tables) : List ImageRow :=
  (t.images.map readImageRow).filter (fun r => r.iiifurl.isSome)

/-- `objects_path and (allowed_classifications or excluded_subclassifications)`. -/
def classifRequested (cfg : Config) : Bool :=
  cfg.hasObjectsPath && (!cfg.allowed.isEmpty || !cfg.excluded.isEmpty)

def data1 (t : Tables) (cfg : Config) : List ImageRow :=
  if classifRequested cfg then
    filter_by_classification (data0 t) t.objects cfg.allowed cfg.excluded
  else data0 t

/-- The first early return: classification filtering ran and left nothing. -/
def abortClassif (t : Tables) (cfg : Config) : Bool :=
  classifRequested cfg && (data1 t cfg).isEmpty

/-- `artist_names and constituents_path and objects_constituents_path`. -/
def artistRequested (cfg : Config) : Bool :=
  !cfg.artist_names.isEmpty && cfg.hasConstituentsPaths

def data2 (t : Tables) (cfg : Config) : List ImageRow :=
  if artistRequested cfg then
    filter_by_artists (data1 t cfg) t.constituents t.links cfg.artist_names
  else data1 t cfg

/-- The second early return: artist filtering ran and left nothing. -/
def abortArtists (t : Tables) (cfg : Config) : Bool :=
  artistRequested cfg && (data2 t cfg).isEmpty

/-- The enriched candidate list `download_dataset` hands to the worker pool. -/
def candidate_tasks (t : Tables) (cfg : Config) : List TaskRow :=
  let rows := (data2 t cfg).map baseTask
  let rows2 := if cfg.hasObjectsPath then mergeObjectMeta t.objects rows else rows
  if cfg.hasConstituentsPaths then mergeArtist t rows2 else rows2

/-- The outcome of `requests.get(url, stream=True, timeout=15)` plus body
streaming: either the call raised, or a response arrived with a status code,
the chunks `iter_content` yielded, and an optional exception raised while
streaming the remainder of the body. -/
inductive HttpResult where
  | err (msg : String) : HttpResult
  | resp (status : Nat) (chunks : List (List Nat)) (bodyErr : Option String) : HttpResult
deriving DecidableEq

/-- The spec's per-item outcome record. -/
inductive DownloadOutcome where
  | success : DownloadOutcome
  | httpFailure (code : Nat) : DownloadOutcome
  | transportError (msg : String) : DownloadOutcome
deriving DecidableEq

/-- A data row of `description.csv`. -/
structure DescriptionRow where
  uuid : String
  filename : String
  artist : Cell
  title : Cell
  date : Cell
  classification : Cell
  medium : Cell
deriving DecidableEq

/-- The ledger/filesystem state: log lines, the description store (`none` =
file absent; the header row is implicit in file creation), and image files. -/
structure FS where
  log : List String
  description : Option (List DescriptionRow)
  files : List (String × List Nat)
deriving DecidableEq

/-- `write_log`: append one line to `download_log.txt` (mode `"a"`). -/
def write_log (fs : FS) (message : String) : FS :=
  { fs with log := fs.log ++ [message] }

/-- `write_description`: append one record to `description.csv` (mode `'a'`,
header written only when the file did not exist). -/
def write_description (fs : FS) (d : DescriptionRow) : FS :=
  match fs.description with
  | none => { fs with description := some [d] }
  | some rows => { fs with description := some (rows ++ [d]) }

/-- `open(path, "wb")` + chunk loop: create/truncate, then write the chunks. -/
def setFile (files : List (String × List Nat)) (n : String) (content : List Nat) :
    List (String × List Nat) :=
  (n, content) :: files.filter (fun p => p.1 != n)

def lookupFile (files : List (String × List Nat)) (n : String) : Option (List Nat) :=
  (files.find? (fun p => p.1 == n)).map Prod.snd

def cellOfOpt : Option String → Cell
  | none => Cell.nan
  | some s => Cell.str s

/-- pandas `Series.get(key, default)`: the default applies only when the label
is absent from the row's index; a present-but-NaN value is returned as NaN. -/
def rowGet (colPresent : Bool) (v : Option String) (dflt : String) : Cell :=
  if colPresent then cellOfOpt v else Cell.str dflt

/-- `f"{base_url}/full/full/360/default.jpg"` (a NaN base url would format as `nan`). -/
def image_url (r : TaskRow) : String :=
  (match r.iiifurl with | some s => s | none => "nan") ++ "/full/full/360/default.jpg"

def file_name (r : TaskRow) : String := r.uuid ++ ".jpg"

/-- The `description_data` dict built in the 200 branch of `download_image`. -/
def descriptionData (r : TaskRow) : DescriptionRow :=
  { uuid := r.uuid, filename := file_name r,
    artist := rowGet r.hasArtistCol r.artist "Unknown",
    title := rowGet r.hasObjCols r.title "Untitled",
    date := rowGet r.hasObjCols r.displaydate "Unknown",
    classification := rowGet r.hasObjCols r.classification "Unknown",
    medium := rowGet r.hasObjCols r.medium "Unknown" }

def successLine (r : TaskRow) : String :=
  "SUCCESS: " ++ file_name r ++ " | URL: " ++ image_url r

def failureLine (r : TaskRow) (code : Nat) : String :=
  "FAILURE (HTTP " ++ toString code ++ "): " ++ file_name r ++ " | URL: " ++ image_url r

def errorLine (r : TaskRow) (msg : String) : String :=
  "ERROR: " ++ file_name r ++ " | URL: " ++ image_url r ++ " | Exception: " ++ msg

/-- `download_image`: on status 200 write the file, log SUCCESS, append the
description row; on another status log FAILURE; on a raised exception log
ERROR — a transport error while streaming the body (after 200) leaves the
chunks already written on disk.  Returns the conceptual `DownloadOutcome`. -/
def download_image (r : TaskRow) (h : HttpResult) (fs : FS) : FS × DownloadOutcome :=
  match h with
  | .err msg => (write_log fs (errorLine r msg), .transportError msg)
  | .resp status chunks bodyErr =>
    if status = 200 then
      match bodyErr with
      | none =>
        let fs1 := { fs with files := setFile fs.files (file_name r) chunks.flatten }
        let fs2 := write_log fs1 (successLine r)
        (write_description fs2 (descriptionData r), .success)
      | some msg =>
        let fs1 := { fs with files := setFile fs.files (file_name r) chunks.flatten }
        (write_log fs1 (errorLine r msg), .transportError msg)
    else (write_log fs (failureLine r status), .httpFailure status)

/-- The worker pool, modelled as a sequential fold over the candidate list. -/
def runDownloads (rows : List TaskRow) (http : String → HttpResult) (fs : FS) :
    FS × List DownloadOutcome :=
  match rows with
  | [] => (fs, [])
  | r :: rs =>
    let p := download_image r (http (image_url r)) fs
    let q := runDownloads rs http p.1
    (q.1, p.2 :: q.2)

def sepLine : String := String.mk (List.replicate 60 '=')

/-- The session-start marker lines `download_dataset` writes to the log. -/
def sessionLines (cfg : Config) : List String :=
  [sepLine, "New Download Session Started"]
  ++ (if cfg.artist_names.isEmpty then [] else
      ["Filtering by artists: " ++ String.intercalate ", " cfg.artist_names])
  ++ (if cfg.allowed.isEmpty then [] else
      ["Allowed classifications: " ++ String.intercalate ", " cfg.allowed])
  ++ (if cfg.excluded.isEmpty then [] else
      ["Excluded subclassifications: " ++ String.intercalate ", " cfg.excluded])
  ++ [sepLine]

/-- `download_dataset`: delete any pre-existing `description.csv`, build and
filter the candidate frame (returning early when a requested filter empties
it), enrich, write the session marker, run the pool. -/
def download_dataset (t : Tables) (cfg : Config) (http : String → HttpResult)
    (fs : FS) : FS :=
  let fsd : FS := { fs with description := none }
  if abortClassif t cfg then fsd
  else if abortArtists t cfg then fsd
  else
    let fsl : FS := { fsd with log := fsd.log ++ sessionLines cfg }
    (runDownloads (candidate_tasks t cfg) http fsl).1

/-- The per-item outcomes of a `download_dataset` run (empty when the run
returned early). -/
def run_outcomes (t : Tables) (cfg : Config) (http : String → HttpResult)
    (fs : FS) : List DownloadOutcome :=
  if abortClassif t cfg then []
  else if abortArtists t cfg then []
  else
    (runDownloads (candidate_tasks t cfg) http
      { fs with description := none, log := fs.log ++ sessionLines cfg }).2

/-- Number of data rows in the description store (header excluded). -/
def descCount (fs : FS) : Nat :=
  match fs.description with
  | none => 0
  | some rows => rows.length

def isSuccess : DownloadOutcome → Bool
  | .success => true
  | _ => false

def countSuccess (os : List DownloadOutcome) : Nat := os.countP isSuccess

/-- The outcome `download_image` records, as a total function of the HTTP
behaviour: every possible behaviour is classified, none escapes. -/
def classifyOutcome : HttpResult → DownloadOutcome
  | .err msg => .transportError msg
  | .resp status _ bodyErr =>
    if status = 200 then
      match bodyErr with
      | none => .success
      | some msg => .transportError msg
    else .httpFailure status

/-- The single log line `download_image` appends, as a total function. -/
def logLine (r : TaskRow) : HttpResult → String
  | .err msg => errorLine r msg
  | .resp status _ bodyErr =>
    if status = 200 then
      match bodyErr with
      | none => successLine r
      | some msg => errorLine r msg
    else failureLine r status

/-! ### Basic ledger lemmas -/

theorem write_description_log (fs : FS) (d : DescriptionRow) :
    (write_description fs d).log = fs.log := by
  cases h : fs.description <;> simp [write_description, h]

theorem write_description_descCount (fs : FS) (d : DescriptionRow) :
    descCount (write_description fs d) = descCount fs + 1 := by
  cases h : fs.description <;> simp [write_description, descCount, h]

theorem write_description_files (fs : FS) (d : DescriptionRow) :
    (write_description fs d).files = fs.files := by
  cases h : fs.description <;> simp [write_description, h]

theorem isSuccess_iff (o : DownloadOutcome) : isSuccess o = true ↔ o = .success := by
  cases o <;> simp [isSuccess]

/-! ### Per-item lemmas about `download_image` -/

theorem download_image_log (r : TaskRow) (h : HttpResult) (fs : FS) :
    (download_image r h fs).1.log = fs.log ++ [logLine r h] := by
  cases h with
  | err m => rfl
  | resp s chunks be =>
    by_cases hs : s = 200
    · cases be <;> simp [download_image, logLine, hs, write_log, write_description_log]
    · simp [download_image, logLine, hs, write_log]

theorem download_image_outcome (r : TaskRow) (h : HttpResult) (fs : FS) :
    (download_image r h fs).2 = classifyOutcome h := by
  cases h with
  | err m => rfl
  | resp s chunks be =>
    by_cases hs : s = 200
    · cases be <;> simp [download_image, classifyOutcome, hs]
    · simp [download_image, classifyOutcome, hs]

theorem download_image_descCount (r : TaskRow) (h : HttpResult) (fs : FS) :
    descCount (download_image r h fs).1
      = descCount fs + (if isSuccess (download_image r h fs).2 then 1 else 0) := by
  cases h with
  | err m => simp [download_image, isSuccess, write_log, descCount]
  | resp s chunks be =>
    by_cases hs : s = 200
    · subst hs
      cases be with
      | none =>
        have h1 : (download_image r (.resp 200 chunks none) fs).1
            = write_description
                (write_log { fs with files := setFile fs.files (file_name r) chunks.flatten }
                  (successLine r))
                (descriptionData r) := rfl
        have h2 : (download_image r (.resp 200 chunks none) fs).2
            = DownloadOutcome.success := rfl
        rw [h1, h2, write_description_descCount]
        simp [isSuccess, write_log, descCount]
      | some m =>
        simp [download_image, isSuccess, write_log, descCount]
    · simp [download_image, hs, isSuccess, write_log, descCount]

theorem download_image_success_iff (r : TaskRow) (h : HttpResult) (fs : FS) :
    (download_image r h fs).2 = DownloadOutcome.success
      ↔ ∃ chunks, h = HttpResult.resp 200 chunks none := by
  rw [download_image_outcome]
  cases h with
  | err m => simp [classifyOutcome]
  | resp s chunks be =>
    by_cases hs : s = 200
    · subst hs
      cases be <;> simp [classifyOutcome]
    · simp [classifyOutcome, hs]

/-! ### Lemmas about the sequential pool fold -/

theorem runDownloads_length (rows : List TaskRow) (http : String → HttpResult) (fs : FS) :
    (runDownloads rows http fs).2.length = rows.length := by
  induction rows generalizing fs with
  | nil => rfl
  | cons r rs ih => simp [runDownloads, ih]

theorem runDownloads_log (rows : List TaskRow) (http : String → HttpResult) (fs : FS) :
    (runDownloads rows http fs).1.log
      = fs.log ++ rows.map (fun r => logLine r (http (image_url r))) := by
  induction rows generalizing fs with
  | nil => simp [runDownloads]
  | cons r rs ih =>
    simp [runDownloads, ih, download_image_log]

theorem runDownloads_descCount (rows : List TaskRow) (http : String → HttpResult) (fs : FS) :
    descCount (runDownloads rows http fs).1
      = descCount fs + countSuccess (runDownloads rows http fs).2 := by
  induction rows generalizing fs with
  | nil => simp [runDownloads, countSuccess]
  | cons r rs ih =>
    have h1 := download_image_descCount r (http (image_url r)) fs
    simp only [runDownloads, countSuccess, List.countP_cons]
    rw [ih, h1]
    simp only [countSuccess]
    omega

/-! ### Claim theorems: ledger counting, outcome totality, session reset -/

/-- Claim C1: after a run the number of data rows in `description.csv` equals
the number of Success outcomes of that run; per item, the description-row
count grows by one exactly when the item's outcome is Success, and the outcome
is Success exactly when the response had status 200 and the body streamed to
the file completely (no row is written for an HttpFailure or TransportError
item). -/
theorem C1_description_rows_equal_successes :
    (∀ (t : Tables) (cfg : Config) (http : String → HttpResult) (fs : FS),
      descCount (download_dataset t cfg http fs) = countSuccess (run_outcomes t cfg http fs))
    ∧ (∀ (r : TaskRow) (h : HttpResult) (fs : FS),
        descCount (download_image r h fs).1
          = descCount fs
            + (if (download_image r h fs).2 = DownloadOutcome.success then 1 else 0))
    ∧ (∀ (r : TaskRow) (h : HttpResult) (fs : FS),
        ((download_image r h fs).2 = DownloadOutcome.success
          ↔ ∃ chunks, h = HttpResult.resp 200 chunks none)) := by
  refine ⟨?_, ?_, download_image_success_iff⟩
  · intro t cfg http fs
    unfold download_dataset run_outcomes
    by_cases h1 : abortClassif t cfg = true
    · simp [h1, descCount, countSuccess]
    · by_cases h2 : abortArtists t cfg = true
      · simp [h1, h2, descCount, countSuccess]
      · simp only [h1, h2, if_false, Bool.false_eq_true]
        rw [runDownloads_descCount]
        simp [descCount]
  · intro r h fs
    rw [download_image_descCount]
    simp [isSuccess_iff]

/-- Claim C7: the per-item worker is total — every possible HTTP behaviour of
an item is classified into exactly one `DownloadOutcome` and exactly one log
line, nothing escapes the item's handler, and a run over a candidate list
produces exactly one outcome per candidate. -/
theorem C7_no_raise_one_outcome_per_item :
    (∀ (rows : List TaskRow) (http : String → HttpResult) (fs : FS),
      (runDownloads rows http fs).2.length = rows.length)
    ∧ (∀ (r : TaskRow) (h : HttpResult) (fs : FS),
        (download_image r h fs).2 = classifyOutcome h)
    ∧ (∀ (r : TaskRow) (h : HttpResult) (fs : FS),
        (download_image r h fs).1.log = fs.log ++ [logLine r h]) :=
  ⟨runDownloads_length, download_image_outcome, download_image_log⟩

/-- Claim C8: a run only appends to the log (every pre-existing line is
preserved, in place), while the description store is deleted at the start of
the run, so the run's result is independent of any pre-existing description
store. -/
theorem C8_log_appended_description_truncated :
    ∀ (t : Tables) (cfg : Config) (http : String → HttpResult) (fs : FS),
      (∃ newLines, (download_dataset t cfg http fs).log = fs.log ++ newLines)
      ∧ download_dataset t cfg http fs
          = download_dataset t cfg http { fs with description := none } := by
  intro t cfg http fs
  constructor
  · unfold download_dataset
    by_cases h1 : abortClassif t cfg = true
    · exact ⟨[], by simp [h1]⟩
    · by_cases h2 : abortArtists t cfg = true
      · exact ⟨[], by simp [h1, h2]⟩
      · refine ⟨sessionLines cfg
          ++ (candidate_tasks t cfg).map (fun r => logLine r (http (image_url r))), ?_⟩
        simp [h1, h2, runDownloads_log]
  · rfl

/-- Claim C10: when a requested filter empties the candidate set, the run
returns before the session marker: the log is unchanged, the image files are
unchanged, and the description store — deleted unconditionally at the start —
is not recreated. -/
theorem C10_empty_result_leaves_no_description :
    ∀ (t : Tables) (cfg : Config) (http : String → HttpResult) (fs : FS),
      (abortClassif t cfg || abortArtists t cfg) = true →
        (download_dataset t cfg http fs).log = fs.log
        ∧ (download_dataset t cfg http fs).description = none
        ∧ (download_dataset t cfg http fs).files = fs.files := by
  intro t cfg http fs h
  unfold download_dataset
  by_cases h1 : abortClassif t cfg = true
  · simp [h1]
  · have h2 : abortArtists t cfg = true := by
      rcases Bool.or_eq_true_iff.mp h with h' | h'
      · exact absurd h' h1
      · exact h'
    simp [h1, h2]

/-- Tables for the empty-result witness: no image rows at all. -/
def tEmpty : Tables := ⟨[], [], [], []⟩

/-- Configuration requesting a classification filter (which finds nothing). -/
def cfgEmpty : Config := ⟨[], ["Painting"], [], true, false⟩

def httpNever : String → HttpResult := fun _ => .err "unreachable"

/-- A starting state with a non-trivial log, description store and file set. -/
def fsPrior : FS := ⟨["old line"], some [], [("f.jpg", [1])]⟩

theorem C10_empty_result_leaves_no_description_witness :
    ((abortClassif tEmpty cfgEmpty || abortArtists tEmpty cfgEmpty) = true)
    ∧ (download_dataset tEmpty cfgEmpty httpNever fsPrior).log = fsPrior.log
    ∧ (download_dataset tEmpty cfgEmpty httpNever fsPrior).description = none
    ∧ (download_dataset tEmpty cfgEmpty httpNever fsPrior).files = fsPrior.files := by
  have h : (abortClassif tEmpty cfgEmpty || abortArtists tEmpty cfgEmpty) = true := by decide
  exact ⟨h, C10_empty_result_leaves_no_description tEmpty cfgEmpty httpNever fsPrior h⟩

/-! ### Claim C4: destination file on failed downloads -/

def fsEmpty : FS := ⟨[], none, []⟩

/-- A bare candidate task used in concrete scenarios. -/
def rPlain : TaskRow := baseTask ⟨"u1", 1, some "http://x"⟩

/-- Claim C4 counterexample: a transport error raised while streaming the
body after a 200 status (stream=True: `iter_content` can raise mid-body) is a
failed download that leaves a partial file at the destination path. -/
theorem C4_counterexample_partial_file :
    (download_image rPlain (HttpResult.resp 200 [[7]] (some "connection reset")) fsEmpty).2
      = DownloadOutcome.transportError "connection reset"
    ∧ lookupFile
        (download_image rPlain (HttpResult.resp 200 [[7]] (some "connection reset")) fsEmpty).1.files
        (file_name rPlain) = some [7]
    ∧ lookupFile fsEmpty.files (file_name rPlain) = none :=
  ⟨rfl, rfl, rfl⟩

/-- Claim C4 amended: a non-200 status or a transport error raised by the
request itself never creates or overwrites the destination file (the write
begins only after a 200 status is confirmed); but a transport error raised
while streaming the body after a 200 status leaves the destination file
containing exactly the chunks already received. -/
theorem C4_amended_no_file_unless_200 :
    (∀ (r : TaskRow) (msg : String) (fs : FS),
      (download_image r (HttpResult.err msg) fs).1.files = fs.files)
    ∧ (∀ (r : TaskRow) (s : Nat) (chunks : List (List Nat)) (be : Option String) (fs : FS),
        s ≠ 200 → (download_image r (HttpResult.resp s chunks be) fs).1.files = fs.files)
    ∧ (∀ (r : TaskRow) (chunks : List (List Nat)) (m : String) (fs : FS),
        (download_image r (HttpResult.resp 200 chunks (some m)) fs).1.files
          = setFile fs.files (file_name r) chunks.flatten) := by
  refine ⟨fun r msg fs => rfl, ?_, fun r chunks m fs => rfl⟩
  intro r s chunks be fs hs
  simp [download_image, hs, write_log]

theorem C4_amended_no_file_unless_200_witness :
    (download_image rPlain (HttpResult.resp 404 [] none) fsEmpty).1.files = fsEmpty.files :=
  C4_amended_no_file_unless_200.2.1 rPlain 404 [] none fsEmpty (by decide)

/-! ### Claim C3: defaults for unset enrichment fields -/

/-- One image of object 1; object 1 has metadata but no artist link at all. -/
def tC3 : Tables :=
  { images := [⟨"u1", 1, some "http://x"⟩]
    objects := [⟨1, some "T", some "1900", some "Painting", none, some "oil"⟩]
    constituents := []
    links := [] }

/-- No filters; both metadata paths supplied, so both merges run. -/
def cfgC3 : Config := ⟨[], [], [], true, true⟩

/-- Every request succeeds with a one-chunk body. -/
def httpOk : String → HttpResult := fun _ => .resp 200 [[1]] none

/-- Claim C3 counterexample: the successfully downloaded item whose object has
zero artist links gets a NaN artist cell in its description row, not
`"Unknown"` — `Series.get`'s default only applies when the column is absent,
and after the left merge the `artist` column is present with value NaN. -/
theorem C3_counterexample_nan_not_unknown :
    (download_dataset tC3 cfgC3 httpOk fsEmpty).description
      = some [{ uuid := "u1", filename := "u1.jpg", artist := Cell.nan,
                title := Cell.str "T", date := Cell.str "1900",
                classification := Cell.str "Painting", medium := Cell.str "oil" }]
    ∧ Cell.nan ≠ Cell.str "Unknown" :=
  ⟨rfl, by decide⟩

/-- Claim C3 amended: the description row substitutes the defaults
(`"Unknown"`/`"Untitled"`) only when the corresponding enrichment column is
absent from the frame (its metadata path was not supplied); when the column
exists, the value written is the joined value itself — NaN (an empty CSV
cell) when the left join left it unset.  In particular an object with zero
artist links joins to a NaN artist field. -/
theorem C3_amended_default_only_without_column :
    (∀ r : TaskRow, r.hasArtistCol = false → (descriptionData r).artist = Cell.str "Unknown")
    ∧ (∀ r : TaskRow, r.hasArtistCol = true → (descriptionData r).artist = cellOfOpt r.artist)
    ∧ (∀ r : TaskRow, r.hasObjCols = false →
        (descriptionData r).title = Cell.str "Untitled"
        ∧ (descriptionData r).date = Cell.str "Unknown"
        ∧ (descriptionData r).classification = Cell.str "Unknown"
        ∧ (descriptionData r).medium = Cell.str "Unknown")
    ∧ (∀ r : TaskRow, r.hasObjCols = true →
        (descriptionData r).title = cellOfOpt r.title
        ∧ (descriptionData r).date = cellOfOpt r.displaydate
        ∧ (descriptionData r).classification = cellOfOpt r.classification
        ∧ (descriptionData r).medium = cellOfOpt r.medium)
    ∧ (∀ (t : Tables) (oid : Nat),
        t.links.filter (fun l => l.objectid == oid && l.roletype == some "artist") = [] →
          artistsJoined t oid = none) := by
  refine ⟨?_, ?_, ?_, ?_, ?_⟩
  · intro r h
    simp [descriptionData, rowGet, h]
  · intro r h
    simp [descriptionData, rowGet, h]
  · intro r h
    simp [descriptionData, rowGet, h]
  · intro r h
    simp [descriptionData, rowGet, h]
  · intro t oid h
    simp [artistsJoined, h]

theorem C3_amended_default_only_without_column_witness :
    (descriptionData rPlain).artist = Cell.str "Unknown"
    ∧ (descriptionData { rPlain with hasArtistCol := true, artist := none }).artist
        = cellOfOpt (none : Option String)
    ∧ artistsJoined tC3 1 = none :=
  ⟨C3_amended_default_only_without_column.1 rPlain rfl,
   C3_amended_default_only_without_column.2.1
     { rPlain with hasArtistCol := true, artist := none } rfl,
   C3_amended_default_only_without_column.2.2.2.2 tC3 1 (by decide)⟩

/-! ### Claim C5: the artist name match is a regex search, not a literal one -/

theorem splitBarAux_no_bar (l : List Char) (acc : List Char) (h : '|' ∉ l) :
    splitBarAux l acc = [acc.reverse ++ l] := by
  induction l generalizing acc with
  | nil => simp [splitBarAux]
  | cons c cs ih =>
    have hc : ¬c = '|' := fun hc => h (hc ▸ List.mem_cons_self c cs)
    have hcs : '|' ∉ cs := fun hm => h (List.mem_cons_of_mem c hm)
    simp [splitBarAux, hc, ih _ hcs]

theorem splitBarAux_append_bar (n rest acc : List Char) (h : '|' ∉ n) :
    splitBarAux (n ++ '|' :: rest) acc = (acc.reverse ++ n) :: splitBarAux rest [] := by
  induction n generalizing acc with
  | nil => simp [splitBarAux]
  | cons c cs ih =>
    have hc : ¬c = '|' := fun hc => h (hc ▸ List.mem_cons_self c cs)
    have hcs : '|' ∉ cs := fun hm => h (List.mem_cons_of_mem c hm)
    simp [splitBarAux, hc, ih _ hcs]

/-- Splitting the joined pattern at bars recovers the alternatives, provided
no alternative itself contains a bar. -/
theorem splitBar_joinBar (ls : List (List Char)) (hne : ls ≠ [])
    (hb : ∀ l ∈ ls, '|' ∉ l) : splitBar (joinBar ls) = ls := by
  induction ls with
  | nil => exact absurd rfl hne
  | cons n ns ih =>
    cases ns with
    | nil =>
      have hn : '|' ∉ n := hb n (List.mem_cons_self n [])
      simp [splitBar, joinBar, splitBarAux_no_bar n [] hn]
    | cons m ms =>
      have hn : '|' ∉ n := hb n (List.mem_cons_self n _)
      have hb2 : ∀ l ∈ m :: ms, '|' ∉ l := fun l hl => hb l (List.mem_cons_of_mem n hl)
      have hj : joinBar (n :: m :: ms) = n ++ '|' :: joinBar (m :: ms) := rfl
      rw [splitBar, hj, splitBarAux_append_bar n _ [] hn]
      have := ih (by simp) hb2
      rw [splitBar] at this
      simp [this]

theorem map_parseTok_no_dot (l : List Char) (h : '.' ∉ l) :
    l.map parseTok = l.map RTok.lit := by
  induction l with
  | nil => rfl
  | cons c cs ih =>
    have hc : ¬c = '.' := fun hc => h (hc ▸ List.mem_cons_self c cs)
    have hcs : '.' ∉ cs := fun hm => h (List.mem_cons_of_mem c hm)
    simp [parseTok, hc, ih hcs]

theorem anyCongr {α : Type} (l : List α) (f g : α → Bool)
    (h : ∀ x ∈ l, f x = g x) : l.any f = l.any g := by
  induction l with
  | nil => rfl
  | cons x xs ih =>
    simp only [List.any_cons]
    rw [h x (List.mem_cons_self x xs), ih (fun y hy => h y (List.mem_cons_of_mem x hy))]

theorem anyMap {α β : Type} (l : List α) (f : α → β) (p : β → Bool) :
    (l.map f).any p = l.any (fun x => p (f x)) := by
  induction l with
  | nil => rfl
  | cons x xs ih => simp [List.any_cons, ih]

/-- The example data of the claim: constituents 10 and 11, each the artist of
one object with one image. -/
def consMonet : List ConstituentRow := [⟨10, some "Claude Monet"⟩, ⟨11, some "Edgar Degas"⟩]

def linksMonet : List LinkRow := [⟨1, 10, some "artist"⟩, ⟨2, 11, some "artist"⟩]

def imgsMonet : List ImageRow := [⟨"m1", 1, some "urlA"⟩, ⟨"d1", 2, some "urlB"⟩]

/-- Claim C5 counterexample: with names = [".onet"], constituent 10 is
selected — and its image kept — although ".onet" does not occur literally
(case-insensitively) in "Claude Monet": the pattern is matched as a regex, in
which `.` matches any character. -/
theorem C5_counterexample_regex_not_literal :
    selectedConstituents consMonet [".onet"] = [⟨10, some "Claude Monet"⟩]
    ∧ filter_by_artists imgsMonet consMonet linksMonet [".onet"] = [⟨"m1", 1, some "urlA"⟩]
    ∧ literalContainsAny [".onet"] "Claude Monet" = false :=
  ⟨rfl, rfl, rfl⟩

/-- Claim C5 amended: a constituent is selected iff the '|'-join of the given
strings, interpreted as a case-insensitive regex, matches somewhere in its
preferred display name.  When every given string consists only of
alphanumerics and spaces (no regex metacharacters) this coincides with the
claimed literal substring test; the claim's own example — names=["Monet"]
against constituents 10/11 — selects exactly constituent 10, and the
candidate images are restricted to objects linked to it with
roleType="artist". -/
theorem C5_amended_regex_semantics :
    (∀ (names : List String) (hay : String), names ≠ [] →
      (∀ n ∈ names, ∀ c ∈ n.data, c.isAlphanum = true ∨ c = ' ') →
      strContainsRegex names hay = literalContainsAny names hay)
    ∧ selectedConstituents consMonet ["Monet"] = [⟨10, some "Claude Monet"⟩]
    ∧ filter_by_artists imgsMonet consMonet linksMonet ["Monet"] = [⟨"m1", 1, some "urlA"⟩] := by
  refine ⟨?_, rfl, rfl⟩
  intro names hay hne halnum
  have hb : ∀ l ∈ names.map String.data, '|' ∉ l := by
    intro l hl hbar
    rcases List.mem_map.mp hl with ⟨n, hn, rfl⟩
    rcases halnum n hn '|' hbar with h | h <;> simp_all
  have hmapne : names.map String.data ≠ [] := by
    intro h
    exact hne (List.map_eq_nil_iff.mp h)
  rw [strContainsRegex, splitBar_joinBar _ hmapne hb, anyMap]
  unfold literalContainsAny
  apply anyCongr
  intro n hn
  have hdot : '.' ∉ n.data := by
    intro hd
    rcases halnum n hn '.' hd with h | h <;> simp_all
  rw [map_parseTok_no_dot n.data hdot]

theorem C5_amended_regex_semantics_witness :
    strContainsRegex ["Monet"] "Claude Monet" = literalContainsAny ["Monet"] "Claude Monet" :=
  C5_amended_regex_semantics.1 ["Monet"] "Claude Monet" (by decide) (by decide)

/-! ### Claim C6: subclassification exclusion is a subset restriction -/

theorem mem_classifObjects {objects : List ObjectRow} {allowed excluded : List String}
    {o : ObjectRow} :
    o ∈ classifObjects objects allowed excluded ↔
      o ∈ objects ∧ (allowed.isEmpty = true ∨ classifKeep allowed o = true)
        ∧ (excluded.isEmpty = true ∨ subclassDrop excluded o = false) := by
  unfold classifObjects
  by_cases ha : allowed.isEmpty = true
  · by_cases he : excluded.isEmpty = true
    · simp [ha, he]
    · simp [ha, he, List.mem_filter]
  · by_cases he : excluded.isEmpty = true
    · simp [ha, he, List.mem_filter]
    · simp [ha, he, List.mem_filter]
      intro _
      constructor
      · rintro ⟨h1, h2⟩
        exact ⟨h2, h1⟩
      · rintro ⟨h1, h2⟩
        exact ⟨h2, h1⟩

theorem mem_filter_by_classification {images : List ImageRow} {objects : List ObjectRow}
    {allowed excluded : List String} {i : ImageRow} :
    i ∈ filter_by_classification images objects allowed excluded ↔
      i ∈ images
        ∧ ∃ o ∈ classifObjects objects allowed excluded, o.objectid = i.objectId := by
  unfold filter_by_classification
  simp [List.mem_filter, List.mem_map, eq_comm]

theorem subclassDrop_eq_true {excluded : List String} {o : ObjectRow} :
    subclassDrop excluded o = true ↔ ∃ s ∈ excluded, o.subclassification = some s := by
  cases h : o.subclassification <;> simp [subclassDrop, h, eq_comm]

/-- Claim C6: for every image table, object table and allowed set, the
candidate set with a subclassification exclusion is a subset of the candidate
set without it; and (objects having unique ids, per the data model) a
candidate of the no-exclusion run survives the exclusion exactly when its
object's subclassification is not in the excluded set. -/
theorem C6_exclusion_subset_and_exact :
    ∀ (images : List ImageRow) (objects : List ObjectRow) (allowed excluded : List String),
      (∀ i ∈ filter_by_classification images objects allowed excluded,
          i ∈ filter_by_classification images objects allowed [])
      ∧ ((objects.map ObjectRow.objectid).Nodup →
          ∀ i ∈ filter_by_classification images objects allowed [],
            (i ∈ filter_by_classification images objects allowed excluded ↔
              ∀ o ∈ objects, o.objectid = i.objectId →
                ∀ s ∈ excluded, o.subclassification ≠ some s)) := by
  intro images objects allowed excluded
  constructor
  · intro i hi
    rcases mem_filter_by_classification.mp hi with ⟨him, o, ho, hid⟩
    rcases mem_classifObjects.mp ho with ⟨hobj, hallow, _⟩
    exact mem_filter_by_classification.mpr
      ⟨him, o, mem_classifObjects.mpr ⟨hobj, hallow, Or.inl rfl⟩, hid⟩
  · intro hnd i hi
    rcases mem_filter_by_classification.mp hi with ⟨him, o1, ho1, hid1⟩
    rcases mem_classifObjects.mp ho1 with ⟨ho1obj, hallow1, _⟩
    constructor
    · intro hie o ho hoid s hs heq
      rcases mem_filter_by_classification.mp hie with ⟨_, o2, ho2, hid2⟩
      rcases mem_classifObjects.mp ho2 with ⟨ho2obj, _, hexcl2⟩
      have hoo2 : o = o2 :=
        List.inj_on_of_nodup_map hnd ho ho2obj (by rw [hoid, hid2])
      rcases hexcl2 with hemp | hdrop
      · rw [List.isEmpty_iff] at hemp
        subst hemp
        exact absurd hs (List.not_mem_nil s)
      · have : subclassDrop excluded o2 = true :=
          subclassDrop_eq_true.mpr ⟨s, hs, hoo2 ▸ heq⟩
        rw [this] at hdrop
        exact absurd hdrop (by decide)
    · intro hall
      refine mem_filter_by_classification.mpr ⟨him, o1, ?_, hid1⟩
      refine mem_classifObjects.mpr ⟨ho1obj, hallow1, ?_⟩
      by_cases he : excluded.isEmpty = true
      · exact Or.inl he
      · refine Or.inr ?_
        by_cases hd : subclassDrop excluded o1 = true
        · rcases subclassDrop_eq_true.mp hd with ⟨s, hs, heq⟩
          exact absurd heq (hall o1 ho1obj hid1 s hs)
        · simpa using hd

/-- The spec's own example table: object 1 is an Oil Painting, object 2 a
Drawing-subclassified Painting, one image each. -/
def imgsC6 : List ImageRow := [⟨"a", 1, some "u"⟩, ⟨"b", 2, some "u"⟩]

def objsC6 : List ObjectRow :=
  [⟨1, none, none, some "Painting", some "Oil", none⟩,
   ⟨2, none, none, some "Painting", some "Drawing", none⟩]

theorem C6_exclusion_subset_and_exact_witness :
    (⟨"a", 1, some "u"⟩ : ImageRow) ∈ filter_by_classification imgsC6 objsC6 ["Painting"] []
    ∧ ((⟨"a", 1, some "u"⟩ : ImageRow)
        ∈ filter_by_classification imgsC6 objsC6 ["Painting"] ["Drawing"] ↔
      ∀ o ∈ objsC6, o.objectid = 1 →
        ∀ s ∈ ["Drawing"], o.subclassification ≠ some s) := by
  have h := (C6_exclusion_subset_and_exact imgsC6 objsC6 ["Painting"] ["Drawing"]).2
    (by decide) ⟨"a", 1, some "u"⟩ (by decide)
  exact ⟨by decide, h⟩

/-! ### Claim C2: every candidate has a non-empty source URL -/

theorem mem_data0_url {t : Tables} {r : ImageRow} (h : r ∈ data0 t) :
    ∃ s, r.iiifurl = some s ∧ s ≠ "" := by
  unfold data0 at h
  rcases (List.mem_filter.mp h) with ⟨hm, hsome⟩
  rcases List.mem_map.mp hm with ⟨raw, _, rfl⟩
  cases hraw : raw.iiifurlRaw with
  | none => simp [readImageRow, parseCell, hraw] at hsome
  | some s =>
    by_cases hs : s = ""
    · simp [readImageRow, parseCell, hraw, hs] at hsome
    · exact ⟨s, by simp [readImageRow, parseCell, hraw, hs], hs⟩

theorem data1_sub {t : Tables} {cfg : Config} {r : ImageRow} (h : r ∈ data1 t cfg) :
    r ∈ data0 t := by
  unfold data1 at h
  by_cases hc : classifRequested cfg = true
  · rw [if_pos hc] at h
    exact (mem_filter_by_classification.mp h).1
  · rwa [if_neg hc] at h

theorem data2_sub {t : Tables} {cfg : Config} {r : ImageRow} (h : r ∈ data2 t cfg) :
    r ∈ data1 t cfg := by
  unfold data2 at h
  by_cases ha : artistRequested cfg = true
  · rw [if_pos ha] at h
    unfold filter_by_artists at h
    by_cases hn : cfg.artist_names.isEmpty = true
    · rwa [if_pos hn] at h
    · rw [if_neg hn] at h
      exact (List.mem_filter.mp h).1
  · rwa [if_neg ha] at h

theorem mem_mergeObjectMeta_url {objects : List ObjectRow} {rows : List TaskRow}
    {x : TaskRow} (h : x ∈ mergeObjectMeta objects rows) :
    ∃ r ∈ rows, x.iiifurl = r.iiifurl := by
  unfold mergeObjectMeta at h
  rcases List.mem_flatMap.mp h with ⟨r, hr, hx⟩
  refine ⟨r, hr, ?_⟩
  cases hf : objects.filter (fun o => o.objectid == r.objectId) with
  | nil =>
    rw [hf] at hx
    rcases List.mem_singleton.mp hx with rfl
    rfl
  | cons o os =>
    rw [hf] at hx
    rcases List.mem_map.mp hx with ⟨o2, _, rfl⟩
    rfl

theorem mem_mergeArtist_url {t : Tables} {rows : List TaskRow} {x : TaskRow}
    (h : x ∈ mergeArtist t rows) : ∃ r ∈ rows, x.iiifurl = r.iiifurl := by
  unfold mergeArtist at h
  rcases List.mem_map.mp h with ⟨r, hr, rfl⟩
  exact ⟨r, hr, rfl⟩

theorem mem_candidate_tasks_url {t : Tables} {cfg : Config} {x : TaskRow}
    (h : x ∈ candidate_tasks t cfg) : ∃ r ∈ data2 t cfg, x.iiifurl = r.iiifurl := by
  unfold candidate_tasks at h
  have step : ∀ y : TaskRow,
      y ∈ (if cfg.hasObjectsPath then
            mergeObjectMeta t.objects ((data2 t cfg).map baseTask)
          else (data2 t cfg).map baseTask) →
        ∃ r ∈ data2 t cfg, y.iiifurl = r.iiifurl := by
    intro y hy
    have base : ∀ z : TaskRow, z ∈ (data2 t cfg).map baseTask →
        ∃ r ∈ data2 t cfg, z.iiifurl = r.iiifurl := by
      intro z hz
      rcases List.mem_map.mp hz with ⟨r, hr, rfl⟩
      exact ⟨r, hr, rfl⟩
    by_cases ho : cfg.hasObjectsPath = true
    · rw [if_pos ho] at hy
      rcases mem_mergeObjectMeta_url hy with ⟨z, hz, hurl⟩
      rcases base z hz with ⟨r, hr, hurl2⟩
      exact ⟨r, hr, hurl.trans hurl2⟩
    · rw [if_neg ho] at hy
      exact base y hy
  by_cases hc : cfg.hasConstituentsPaths = true
  · rw [if_pos hc] at h
    rcases mem_mergeArtist_url h with ⟨y, hy, hurl⟩
    rcases step y hy with ⟨r, hr, hurl2⟩
    exact ⟨r, hr, hurl.trans hurl2⟩
  · rw [if_neg hc] at h
    exact step x h

/-- Claim C2: after the `dropna` every row of the working frame has a present,
non-empty source URL (pandas turns a missing or empty CSV field into NaN, and
`dropna` removes those rows before any download), and the invariant carries
through every filter and merge to the final candidate list. -/
theorem C2_candidates_have_nonempty_url :
    ∀ (t : Tables) (cfg : Config),
      ((data0 t).all (fun r => r.iiifurl.isSome && (r.iiifurl != some ""))) = true
      ∧ ((candidate_tasks t cfg).all
          (fun x => x.iiifurl.isSome && (x.iiifurl != some ""))) = true := by
  intro t cfg
  constructor
  · rw [List.all_eq_true]
    intro r hr
    rcases mem_data0_url hr with ⟨s, hs, hne⟩
    simp [hs, hne]
  · rw [List.all_eq_true]
    intro x hx
    rcases mem_candidate_tasks_url hx with ⟨r, hr, hurl⟩
    rcases mem_data0_url (data1_sub (data2_sub hr)) with ⟨s, hs, hne⟩
    simp [hurl, hs, hne]

end NGA
